import Mathlib

set_option maxRecDepth 1000000

/-!
# Pnyx — type-safe configuration loader: shallow embedding and verification

This file embeds the runtime behavior of the Pnyx configuration loader
(`parseValue`, `loadSchema`, `Pnyx`) in Lean and proves properties about it.

Modelling decisions:
* JS objects used as ordered string-keyed records (`ConfigSchema`, `ConfigGroup`,
  `process.env`, the constants record, the built configuration) are embedded as
  association lists `List (String × _)` in declaration order, or as
  `String → Option String` for the environment snapshot.
* JS numbers produced by `Number(string)` are embedded exactly: the result is
  either NaN, ±Infinity, or a finite value kept as an exact rational.  Rounding
  of finite values to binary64 is not modelled (no behavior in this code depends
  on it), except for overflow to ±Infinity, which changes `isFinite` and is
  therefore modelled with the exact binary64 round-to-nearest overflow threshold
  `2^1024 - 2^970`.
* `Object.freeze` and property assignment are embedded with an explicit
  `frozen` flag: assignment on a frozen object leaves it unchanged (in sloppy
  mode the write is silently discarded, in strict mode a TypeError is thrown;
  either way the stored value never changes).
* Callback invocations (`onWarn`, `onLog`, `onError`) are embedded as an
  ordered event trace rather than opaque function calls.
-/

/-- Decidable equality for `Except`, used to evaluate concrete parser results. -/
instance {E A : Type} [DecidableEq E] [DecidableEq A] : DecidableEq (Except E A) := fun x y =>
  match x, y with
  | .ok a, .ok b =>
    if h : a = b then .isTrue (by rw [h])
    else .isFalse (fun hc => h (Except.ok.inj hc))
  | .error a, .error b =>
    if h : a = b then .isTrue (by rw [h])
    else .isFalse (fun hc => h (Except.error.inj hc))
  | .ok _, .error _ => .isFalse (fun hc => Except.noConfusion hc)
  | .error _, .ok _ => .isFalse (fun hc => Except.noConfusion hc)

/-- The `type` field of a variable definition: `"boolean" | "number" | "string"`. -/
inductive InputVariableType where
  | boolean
  | number
  | string
deriving DecidableEq, Repr

/-- A runtime configuration value: `boolean | number | string`.
JS numbers are kept as exact rationals (see the module docstring). -/
inductive VariableType where
  | boolean (b : Bool)
  | number (q : Rat)
  | string (s : String)
deriving DecidableEq, Repr

/-- JS `typeof` restricted to the values a `default` may hold, as compared
against the effective type string in `loadSchema` (line 189 of the source). -/
def typeofValue : VariableType → InputVariableType
  | .boolean _ => .boolean
  | .number _ => .number
  | .string _ => .string

/-- One entry of a schema group (`interface VariableDefinition`). -/
structure VariableDefinition where
  varName : Option String := none
  type : Option InputVariableType := none
  required : Option Bool := none
  default : Option VariableType := none
deriving DecidableEq, Repr

/-- `interface ConfigGroup`: property key → variable definition, declaration order. -/
abbrev ConfigGroup := List (String × VariableDefinition)

/-- `interface ConfigSchema`: group name → group, declaration order. -/
abbrev ConfigSchema := List (String × ConfigGroup)

/-! ## JS `Number(string)` semantics (ECMAScript StringToNumber) -/

/-- ECMAScript whitespace / line terminators stripped by `StringToNumber`. -/
def isJsWhitespace (c : Char) : Bool :=
  c = ' ' || c = '\t' || c = '\n' || c.val == 11 || c.val == 12 || c = '\r' ||
  c.val == 0xA0 || c.val == 0x1680 || (0x2000 ≤ c.val && c.val ≤ 0x200A) ||
  c.val == 0x2028 || c.val == 0x2029 || c.val == 0x202F || c.val == 0x205F ||
  c.val == 0x3000 || c.val == 0xFEFF

/-- Strip leading and trailing JS whitespace. -/
def jsTrim (cs : List Char) : List Char :=
  ((cs.dropWhile isJsWhitespace).reverse.dropWhile isJsWhitespace).reverse

/-- Value of a single hexadecimal digit, `none` for non-digits. -/
def hexDigitVal (c : Char) : Option Nat :=
  if '0' ≤ c ∧ c ≤ '9' then some (c.toNat - '0'.toNat)
  else if 'a' ≤ c ∧ c ≤ 'f' then some (c.toNat - 'a'.toNat + 10)
  else if 'A' ≤ c ∧ c ≤ 'F' then some (c.toNat - 'A'.toNat + 10)
  else none

/-- Is `c` a digit of the given radix (2, 8, 10 or 16)? -/
def isRadixDigit (base : Nat) (c : Char) : Bool :=
  match hexDigitVal c with
  | some v => v < base
  | none => false

/-- Value of a digit string in the given radix. -/
def digitsVal (base : Nat) (ds : List Char) : Nat :=
  ds.foldl (fun a c => a * base + ((hexDigitVal c).getD 0)) 0

/-- Result of JS `Number(string)`: NaN, ±Infinity, or a finite value. -/
inductive JsNum where
  | nan
  | inf (neg : Bool)
  | finite (q : Rat)
deriving DecidableEq, Repr

/-- The binary64 round-to-nearest overflow threshold `2^1024 - 2^970`,
as an exact rational. -/
def jsOverflowThreshold : Rat := mkRat ((2 ^ 1024 - 2 ^ 970 : Nat) : Int) 1

/-- Binary64 overflow: finite mathematical values of magnitude at least
`2^1024 - 2^970` round to ±Infinity under round-to-nearest-even. -/
def jsOverflowCheck (q : Rat) : JsNum :=
  if jsOverflowThreshold ≤ q then .inf false
  else if q ≤ -jsOverflowThreshold then .inf true
  else .finite q

/-- ECMAScript `StrDecimalLiteral` without sign: digits, optional fraction,
optional exponent; at least one digit in the integer or fraction part; the
whole input must be consumed.  The value is assembled with `mkRat` from
integer arithmetic: `(int.frac) e±exp = (int*10^|frac| + frac) * 10^±exp / 10^|frac|`. -/
def parseDecimalLiteral (cs : List Char) : Option Rat :=
  let intDigits := cs.takeWhile Char.isDigit
  let rest1 := cs.dropWhile Char.isDigit
  let fracDigits := match rest1 with
    | '.' :: r => r.takeWhile Char.isDigit
    | _ => []
  let rest2 := match rest1 with
    | '.' :: r => r.dropWhile Char.isDigit
    | _ => rest1
  if intDigits.isEmpty && fracDigits.isEmpty then none
  else
    let mantNum : Nat := digitsVal 10 intDigits * 10 ^ fracDigits.length + digitsVal 10 fracDigits
    let mantDen : Nat := 10 ^ fracDigits.length
    match rest2 with
    | [] => some (mkRat (mantNum : Int) mantDen)
    | c :: r =>
      if c = 'e' || c = 'E' then
        let signedDigits : Bool × List Char := match r with
          | '+' :: r2 => (true, r2)
          | '-' :: r2 => (false, r2)
          | _ => (true, r)
        let eds := signedDigits.2.takeWhile Char.isDigit
        if eds.isEmpty || !(signedDigits.2.dropWhile Char.isDigit).isEmpty then none
        else if signedDigits.1 then
          some (mkRat ((mantNum * 10 ^ digitsVal 10 eds : Nat) : Int) mantDen)
        else
          some (mkRat (mantNum : Int) (mantDen * 10 ^ digitsVal 10 eds))
      else none

/-- A non-decimal (`0x` / `0o` / `0b`) integer literal body. -/
def parseRadixBody (base : Nat) (rest : List Char) : JsNum :=
  if !rest.isEmpty && rest.all (isRadixDigit base) then
    jsOverflowCheck (digitsVal base rest)
  else .nan

/-- Signed decimal literal or `Infinity`, after trimming. -/
def parseSignedDecimal (cs : List Char) : JsNum :=
  let signedBody : Bool × List Char := match cs with
    | '+' :: r => (false, r)
    | '-' :: r => (true, r)
    | _ => (false, cs)
  if signedBody.2 = "Infinity".toList then .inf signedBody.1
  else
    match parseDecimalLiteral signedBody.2 with
    | some q => jsOverflowCheck (if signedBody.1 then -q else q)
    | none => .nan

/-- JS `Number(value)` on a string (ECMAScript `StringToNumber`). -/
def jsStringToNumber (s : String) : JsNum :=
  match jsTrim s.toList with
  | [] => .finite 0
  | '0' :: x :: rest =>
    if x = 'x' || x = 'X' then parseRadixBody 16 rest
    else if x = 'o' || x = 'O' then parseRadixBody 8 rest
    else if x = 'b' || x = 'B' then parseRadixBody 2 rest
    else parseSignedDecimal ('0' :: x :: rest)
  | cs => parseSignedDecimal cs

/-! ## Errors, warnings and callback events -/

/-- The `new Error(...)` sites of the source, with the data each message
interpolates.  `parseBoolean`/`parseNumber` are the two `ParseError` throw
sites of `parseValue`; `defaultTypeMismatch` and `missingRequired` are the
two schema-walk error pushes of `loadSchema` (`missingRequired` records
whether the message additionally notes an invalid default). -/
inductive PnyxError where
  | parseBoolean (envVarName value : String)
  | parseNumber (envVarName value : String)
  | defaultTypeMismatch (groupName propName : String)
      (typeofDefault effectiveType : InputVariableType)
  | missingRequired (groupName propName : String) (varName : Option String)
      (defaultInvalid : Bool)
deriving DecidableEq, Repr

/-- A callback invocation: `onWarn`, `onLog`, or the final `onError`. -/
inductive PnyxEvent where
  | warn (message : String)
  | log (message : String)
  | fatal (errors : List PnyxError)
deriving DecidableEq, Repr

/-- JS template-literal interpolation of a possibly-undefined `varName`. -/
def renderVarName : Option String → String
  | some s => s
  | none => "undefined"

/-- Message pushed/emitted when a default value substitutes for a missing
variable (source lines 198 and 203; both sites build the same string). -/
def usingDefaultMessage (varName : Option String) (groupName propName : String) : String :=
  "Required environment variable \"" ++ renderVarName varName ++ " (for " ++ groupName ++
    "." ++ propName ++ ") was not set. Using provided default value."

/-- Message logged when an optional variable is absent with no usable default
(source lines 206 and 209). -/
def notSetMessage (varName : Option String) (groupName propName : String) : String :=
  "Environment variable \"" ++ renderVarName varName ++ "\" (for " ++ groupName ++
    "." ++ propName ++ ") was not set."

/-- Warning emitted when a constants key collides with a schema group
(source line 264). -/
def collisionMessage (key : String) : String :=
  "Constant key \"" ++ key ++ "\" overlaps with a top-level schema group name. The constant value will overwrite the dynamic group!"

/-- The message of the internal error thrown when `onError` returns control
(source line 272). -/
def pnyxThrowMessage : String :=
  "Pnyx configuration loading failed, and onError handler did not terminate execution!"

/-! ## The value parser -/

/-- JS `String.prototype.toLowerCase()`.  Only the ASCII range matters for the
comparisons against `"true" | "1" | "false" | "0"`: no non-ASCII character
lowercases to any character of those literals, so ASCII lowering is an exact
model of this use. -/
def jsToLowerCase (s : String) : String :=
  String.mk (s.data.map Char.toLower)

/-- `parseValue` (source lines 117–137): coerce a raw environment string into
the declared type.  The thrown `Error`s become `Except.error`. -/
def parseValue (value : String) (type : InputVariableType) (envVarName : String) :
    Except PnyxError VariableType :=
  match type with
  | .boolean =>
    let valueLower := jsToLowerCase value
    if valueLower = "true" || valueLower = "1" then .ok (.boolean true)
    else if valueLower = "false" || valueLower = "0" then .ok (.boolean false)
    else .error (.parseBoolean envVarName value)
  | .number =>
    match jsStringToNumber value with
    | .finite num => .ok (.number num)
    | .nan => .error (.parseNumber envVarName value)
    | .inf _ => .error (.parseNumber envVarName value)
  | .string => .ok (.string value)

/-- Reference definition of the Value Parser transcribed from the
specification's words (§4.1): case-insensitive boolean literal match,
numeric coercion rejecting NaN / non-finite results, string identity. -/
def parseValueSpec (rawValue : String) (declaredType : InputVariableType)
    (variableLabel : String) : Except PnyxError VariableType :=
  match declaredType with
  | .boolean =>
    if jsToLowerCase rawValue = "true" || jsToLowerCase rawValue = "1" then .ok (.boolean true)
    else if jsToLowerCase rawValue = "false" || jsToLowerCase rawValue = "0" then
      .ok (.boolean false)
    else .error (.parseBoolean variableLabel rawValue)
  | .number =>
    match jsStringToNumber rawValue with
    | .finite q => .ok (.number q)
    | _ => .error (.parseNumber variableLabel rawValue)
  | .string => .ok (.string rawValue)

/-! ## The schema loader -/

/-- The outcome of processing one declared variable inside `loadSchema`'s
inner loop (source lines 167–214): the resolved `finalValue`, the errors
pushed onto `errors`, the messages pushed onto the `warnings` array, and the
`onWarn`/`onLog` callback invocations, in order. -/
structure VarOutcome where
  value : Option VariableType
  errors : List PnyxError
  warnings : List String
  events : List PnyxEvent
deriving DecidableEq, Repr

/-- The environment-variable-missing half of the loop body (source lines
183–211): validate the default against the effective type, then apply the
required/default policy. -/
def resolveMissing (groupName propName : String) (defn : VariableDefinition)
    (effectiveType : InputVariableType) : VarOutcome :=
  let isDefaultValueValid : Bool :=
    match defn.default with
    | some dv => decide (typeofValue dv = effectiveType)
    | none => true
  let typeErrors : List PnyxError :=
    match defn.default with
    | some dv =>
      if typeofValue dv = effectiveType then []
      else [.defaultTypeMismatch groupName propName (typeofValue dv) effectiveType]
    | none => []
  if defn.required = some true then
    match defn.default with
    | some dv =>
      if isDefaultValueValid then
        { value := some dv, errors := typeErrors,
          warnings := [usingDefaultMessage defn.varName groupName propName],
          events := [] }
      else
        { value := none,
          errors := typeErrors ++
            [.missingRequired groupName propName defn.varName (!isDefaultValueValid)],
          warnings := [], events := [] }
    | none =>
      { value := none,
        errors := typeErrors ++
          [.missingRequired groupName propName defn.varName (!isDefaultValueValid)],
        warnings := [], events := [] }
  else
    match defn.default with
    | some dv =>
      if isDefaultValueValid then
        { value := some dv, errors := typeErrors, warnings := [],
          events := [.warn (usingDefaultMessage defn.varName groupName propName)] }
      else
        { value := none, errors := typeErrors, warnings := [],
          events := [.log (notSetMessage defn.varName groupName propName)] }
    | none =>
      { value := none, errors := typeErrors, warnings := [],
        events := [.log (notSetMessage defn.varName groupName propName)] }

/-- The full loop body for one declared variable (source lines 167–214):
resolve the effective name and type, read the environment snapshot, and
either parse a present non-empty value or fall into the missing case. -/
def resolveVar (groupName propName : String) (defn : VariableDefinition)
    (env : String → Option String) : VarOutcome :=
  let effectiveVarName := defn.varName.getD propName
  let effectiveType := defn.type.getD .string
  match env effectiveVarName with
  | some envValue =>
    if envValue = "" then resolveMissing groupName propName defn effectiveType
    else
      match parseValue envValue effectiveType effectiveVarName with
      | .ok v => { value := some v, errors := [], warnings := [], events := [] }
      | .error e => { value := none, errors := [e], warnings := [], events := [] }
  | none => resolveMissing groupName propName defn effectiveType

/-- A group sub-object of the configuration being built.  `frozen` records
whether `Object.freeze` has been applied (source line 217). -/
structure JsGroupObj where
  fields : List (String × Option VariableType)
  frozen : Bool
deriving DecidableEq, Repr

/-- Everything `loadSchema` produces (source lines 220–228): the configuration
tree (`null` when any error was pushed), the aggregated `errors` and
`warnings` arrays, and the `onWarn`/`onLog` invocations it performed. -/
structure LoadResult where
  config : Option (List (String × JsGroupObj))
  errors : List PnyxError
  warnings : List String
  events : List PnyxEvent
deriving DecidableEq, Repr

/-- The inner `for (const propName in groupSchema)` loop (source lines
166–215): fields in declaration order, with the error/warning/event channels
concatenated per variable. -/
def loadProps (groupName : String) (groupSchema : ConfigGroup)
    (env : String → Option String) :
    List (String × Option VariableType) × List PnyxError × List String × List PnyxEvent :=
  match groupSchema with
  | [] => ([], [], [], [])
  | (propName, defn) :: rest =>
    let o := resolveVar groupName propName defn env
    let r := loadProps groupName rest env
    ((propName, o.value) :: r.1, o.errors ++ r.2.1, o.warnings ++ r.2.2.1,
      o.events ++ r.2.2.2)

/-- The outer `for (const groupName in schema)` loop (source lines 159–218);
each finished group object is frozen (source line 217). -/
def loadGroups (schema : ConfigSchema) (env : String → Option String) :
    List (String × JsGroupObj) × List PnyxError × List String × List PnyxEvent :=
  match schema with
  | [] => ([], [], [], [])
  | (groupName, groupSchema) :: rest =>
    let g := loadProps groupName groupSchema env
    let r := loadGroups rest env
    ((groupName, ⟨g.1, true⟩) :: r.1, g.2.1 ++ r.2.1, g.2.2.1 ++ r.2.2.1,
      g.2.2.2 ++ r.2.2.2)

/-- `loadSchema` (source lines 148–229).  The environment snapshot
(`process.env`) is passed explicitly as `env`. -/
def loadSchema (schema : ConfigSchema) (env : String → Option String) : LoadResult :=
  let r := loadGroups schema env
  if r.2.1.length > 0 then ⟨none, r.2.1, r.2.2.1, r.2.2.2⟩
  else ⟨some r.1, r.2.1, r.2.2.1, r.2.2.2⟩

/-! ## The assembler (`Pnyx`) -/

/-- A top-level value of the final configuration object: either a dynamic
group or a constant (of arbitrary caller-chosen type `κ`, matching the
source's `Record<string, unknown>`). -/
inductive TopValue (κ : Type) where
  | group (g : JsGroupObj)
  | const (c : κ)
deriving DecidableEq, Repr

/-- The final configuration object, with its `Object.freeze` flag
(source line 280). -/
structure TopObj (κ : Type) where
  fields : List (String × TopValue κ)
  frozen : Bool
deriving DecidableEq, Repr

/-- First-match association-list lookup, the JS-object field access on our
embedding (JS object keys are unique, so first match is the match). -/
def lookupField {V : Type} : List (String × V) → String → Option V
  | [], _ => none
  | p :: rest, key => if p.1 = key then some p.2 else lookupField rest key

/-- The collision check loop of `Pnyx` (source lines 262–266): one warning per
constants key, in constants declaration order, when it names a schema group. -/
def collisionWarnings {κ : Type} (constants : List (String × κ)) (schema : ConfigSchema) :
    List PnyxEvent :=
  constants.filterMap (fun c =>
    if (schema.map Prod.fst).contains c.1 then some (.warn (collisionMessage c.1))
    else none)

/-- The spread merge `{...config, ...constants}` (source lines 275–278):
config keys in order, each overridden by a same-named constant; then the
constants keys not present in config.  JS object keys are unique within each
operand. -/
def spreadConstants {κ : Type} (base : List (String × TopValue κ))
    (constants : List (String × κ)) : List (String × TopValue κ) :=
  base.map (fun p =>
    match lookupField constants p.1 with
    | some c => (p.1, .const c)
    | none => p) ++
  (constants.filter (fun c => !(base.any (fun p => p.1 == c.1)))).map
    (fun c => (c.1, TopValue.const c.2))

/-- The observable outcome of one `Pnyx` call: the returned frozen object, or
the internal `Error` thrown after `onError` returned control; plus the ordered
trace of callback invocations. -/
structure PnyxRun (κ : Type) where
  result : Except String (TopObj κ)
  events : List PnyxEvent
deriving Repr

/-- `Pnyx` (source lines 236–281): warn on constants/schema collisions, run
`loadSchema`, dispatch `onError` and throw when errors were aggregated,
otherwise merge constants over the dynamic result and freeze.  Note that the
destructuring on source line 268 takes only `config` and `errors` from the
load result: the `warnings` array is dropped. -/
def Pnyx {κ : Type} (schema : ConfigSchema) (constants : List (String × κ))
    (env : String → Option String) : PnyxRun κ :=
  let cw := collisionWarnings constants schema
  let lr := loadSchema schema env
  if lr.errors.length > 0 then
    { result := .error pnyxThrowMessage,
      events := cw ++ lr.events ++ [.fatal lr.errors] }
  else
    { result := .ok ⟨spreadConstants ((lr.config.getD []).map
        (fun g => (g.1, TopValue.group g.2))) constants, true⟩,
      events := cw ++ lr.events }

/-! ## JS property assignment on possibly frozen objects -/

/-- Assignment into an association list: overwrite the existing key or append
a new one. -/
def setAssoc {V : Type} (fields : List (String × V)) (key : String) (v : V) :
    List (String × V) :=
  if fields.any (fun p => p.1 == key) then
    fields.map (fun p => if p.1 = key then (p.1, v) else p)
  else fields ++ [(key, v)]

/-- JS property assignment on a group object: on a frozen object the write is
rejected and the stored values never change. -/
def JsGroupObj.setField (g : JsGroupObj) (key : String) (v : Option VariableType) :
    JsGroupObj :=
  if g.frozen then g else { g with fields := setAssoc g.fields key v }

/-- JS property assignment on the top-level configuration object: on a frozen
object the write is rejected and the stored values never change. -/
def TopObj.setField {κ : Type} (o : TopObj κ) (key : String) (v : TopValue κ) :
    TopObj κ :=
  if o.frozen then o else { o with fields := setAssoc o.fields key v }

/-! ## Characterization of the walk -/

/-- All errors the walk pushes, per variable, in schema declaration order. -/
def walkErrors (schema : ConfigSchema) (env : String → Option String) : List PnyxError :=
  schema.flatMap (fun g => g.2.flatMap (fun p => (resolveVar g.1 p.1 p.2 env).errors))

/-- All messages the walk pushes onto the `warnings` array, in declaration order. -/
def walkWarnings (schema : ConfigSchema) (env : String → Option String) : List String :=
  schema.flatMap (fun g => g.2.flatMap (fun p => (resolveVar g.1 p.1 p.2 env).warnings))

/-- All `onWarn`/`onLog` invocations of the walk, in declaration order. -/
def walkEvents (schema : ConfigSchema) (env : String → Option String) : List PnyxEvent :=
  schema.flatMap (fun g => g.2.flatMap (fun p => (resolveVar g.1 p.1 p.2 env).events))

/-- The fully built configuration tree: one frozen group per schema group, one
field per declared property, in declaration order. -/
def resolvedGroups (schema : ConfigSchema) (env : String → Option String) :
    List (String × JsGroupObj) :=
  schema.map (fun g =>
    (g.1, ⟨g.2.map (fun p => (p.1, (resolveVar g.1 p.1 p.2 env).value)), true⟩))

/-! ## Concrete inputs used by witnesses and counterexamples -/

/-- The empty environment snapshot. -/
def emptyEnv : String → Option String := fun _ => none

/-- A schema with three independently failing variables across two groups. -/
def wSchemaAgg : ConfigSchema :=
  [("a", [("x", { type := some .number }), ("y", { required := some true })]),
   ("b", [("z", { type := some .boolean })])]

/-- An environment with a malformed number for `x` and a malformed boolean
for `z`. -/
def wEnvAgg : String → Option String :=
  fun n => if n = "x" then some "abc" else if n = "z" then some "maybe" else none

/-- One group, one required variable with a valid string default. -/
def wSchemaReqDef : ConfigSchema :=
  [("g", [("k", { required := some true, default := some (.string "x") })])]

/-- The final configuration object `Pnyx` builds from `wSchemaReqDef` with an
empty environment and no constants. -/
def wTopReqDef : TopObj Unit :=
  ⟨[("g", .group ⟨[("k", some (.string "x"))], true⟩)], true⟩

/-- One group, one optional number variable with an external name and a
number default. -/
def wSchemaNumDef : ConfigSchema :=
  [("g", [("k", { varName := some "K", type := some .number, default := some (.number 5) })])]

/-- The configuration tree `loadSchema` builds from `wSchemaNumDef` with an
empty environment. -/
def wCfgNumDef : List (String × JsGroupObj) :=
  [("g", { fields := [("k", some (.number 5))], frozen := true })]

/-- One group `"db"` with one defaulted variable, used with constants that
collide on `"db"`. -/
def wSchemaC6 : ConfigSchema :=
  [("db", [("host", { default := some (.string "localhost") })])]

/-- The final configuration object `Pnyx` builds from `wSchemaNumDef`, an
empty environment and the constants `[("c", 3)]`. -/
def wTopC9 : TopObj Nat :=
  ⟨[("g", .group ⟨[("k", some (.number 5))], true⟩), ("c", .const 3)], true⟩


theorem loadProps_eq (groupName : String) (groupSchema : ConfigGroup)
    (env : String → Option String) :
    loadProps groupName groupSchema env =
      (groupSchema.map (fun p => (p.1, (resolveVar groupName p.1 p.2 env).value)),
       groupSchema.flatMap (fun p => (resolveVar groupName p.1 p.2 env).errors),
       groupSchema.flatMap (fun p => (resolveVar groupName p.1 p.2 env).warnings),
       groupSchema.flatMap (fun p => (resolveVar groupName p.1 p.2 env).events)) := by
  induction groupSchema with
  | nil => simp [loadProps]
  | cons hd tl ih => simp [loadProps, ih]

theorem loadGroups_eq (schema : ConfigSchema) (env : String → Option String) :
    loadGroups schema env =
      (resolvedGroups schema env, walkErrors schema env, walkWarnings schema env,
       walkEvents schema env) := by
  induction schema with
  | nil => simp [loadGroups, resolvedGroups, walkErrors, walkWarnings, walkEvents]
  | cons hd tl ih =>
    simp [loadGroups, ih, loadProps_eq, resolvedGroups, walkErrors, walkWarnings, walkEvents]

theorem loadSchema_errors (schema : ConfigSchema) (env : String → Option String) :
    (loadSchema schema env).errors = walkErrors schema env := by
  simp only [loadSchema, loadGroups_eq]
  split <;> rfl

theorem loadSchema_warnings (schema : ConfigSchema) (env : String → Option String) :
    (loadSchema schema env).warnings = walkWarnings schema env := by
  simp only [loadSchema, loadGroups_eq]
  split <;> rfl

theorem loadSchema_events (schema : ConfigSchema) (env : String → Option String) :
    (loadSchema schema env).events = walkEvents schema env := by
  simp only [loadSchema, loadGroups_eq]
  split <;> rfl

theorem loadSchema_config_none_iff (schema : ConfigSchema) (env : String → Option String) :
    (loadSchema schema env).config = none ↔ (loadSchema schema env).errors ≠ [] := by
  simp only [loadSchema, loadGroups_eq]
  split
  · next h => simpa using List.length_pos.mp h
  · next h =>
      have h0 : walkErrors schema env = [] :=
        List.length_eq_zero.mp (Nat.eq_zero_of_not_pos h)
      simp [h0]

theorem loadSchema_config_some (schema : ConfigSchema) (env : String → Option String)
    (cfg : List (String × JsGroupObj)) (h : (loadSchema schema env).config = some cfg) :
    cfg = resolvedGroups schema env ∧ (loadSchema schema env).errors = [] := by
  revert h
  simp only [loadSchema, loadGroups_eq]
  split
  · next hl =>
      intro h
      exact absurd h (by simp)
  · next hl =>
      intro h
      have h0 : walkErrors schema env = [] :=
        List.length_eq_zero.mp (Nat.eq_zero_of_not_pos hl)
      simp only at h
      exact ⟨(Option.some.injEq _ _ ▸ h).symm, h0⟩

theorem resolveMissing_value_none (groupName propName : String) (defn : VariableDefinition)
    (t : InputVariableType) :
    (resolveMissing groupName propName defn t).errors = [] →
    (resolveMissing groupName propName defn t).value = none →
    defn.default = none ∧ defn.required ≠ some true := by
  by_cases hr : defn.required = some true <;> cases hd : defn.default
  case pos.none =>
    simp [resolveMissing, hr, hd]
  case pos.some dv =>
    by_cases ht : typeofValue dv = t <;> simp [resolveMissing, hr, hd, ht]
  case neg.none =>
    simp [resolveMissing, hr, hd]
  case neg.some dv =>
    by_cases ht : typeofValue dv = t <;> simp [resolveMissing, hr, hd, ht]

theorem resolveVar_value_none (groupName propName : String) (defn : VariableDefinition)
    (env : String → Option String)
    (he : (resolveVar groupName propName defn env).errors = [])
    (hv : (resolveVar groupName propName defn env).value = none) :
    (env (defn.varName.getD propName) = none ∨ env (defn.varName.getD propName) = some "") ∧
    defn.default = none ∧ defn.required ≠ some true := by
  unfold resolveVar at he hv
  cases henv : env (defn.varName.getD propName) with
  | none =>
    simp only [henv] at he hv
    exact ⟨Or.inl rfl, resolveMissing_value_none _ _ _ _ he hv⟩
  | some v =>
    simp only [henv] at he hv
    by_cases hv0 : v = ""
    · rw [if_pos hv0] at he hv
      exact ⟨Or.inr (by rw [hv0]), resolveMissing_value_none _ _ _ _ he hv⟩
    · rw [if_neg hv0] at he hv
      cases hp : parseValue v (defn.type.getD .string) (defn.varName.getD propName) with
      | ok w => rw [hp] at hv; exact absurd hv (by simp)
      | error e => rw [hp] at he; exact absurd he (by simp)

/-- Claim C3: the load pass never short-circuits — the errors and warnings
lists are exactly the concatenation, over every group and every property in
schema declaration order, of each variable's pushed errors and warnings, and
the returned configuration is `none` exactly when the error list is
non-empty after the full walk. -/
theorem claim_C3 (schema : ConfigSchema) (env : String → Option String) :
    (loadSchema schema env).errors =
      schema.flatMap (fun g => g.2.flatMap (fun p => (resolveVar g.1 p.1 p.2 env).errors)) ∧
    (loadSchema schema env).warnings =
      schema.flatMap (fun g => g.2.flatMap (fun p => (resolveVar g.1 p.1 p.2 env).warnings)) ∧
    ((loadSchema schema env).config = none ↔ (loadSchema schema env).errors ≠ []) :=
  ⟨loadSchema_errors schema env, loadSchema_warnings schema env,
    loadSchema_config_none_iff schema env⟩

/-- A schema with three independently failing variables across two groups
yields exactly its three errors, in declaration order, and a `none` result. -/
theorem loadSchema_aggregate_example :
    (loadSchema
      [("a", [("x", { type := some .number }), ("y", { required := some true })]),
       ("b", [("z", { type := some .boolean })])]
      (fun n => if n = "x" then some "abc" else if n = "z" then some "maybe" else none)).errors =
      [.parseNumber "x" "abc", .missingRequired "a" "y" none false,
       .parseBoolean "z" "maybe"] ∧
    (loadSchema
      [("a", [("x", { type := some .number }), ("y", { required := some true })]),
       ("b", [("z", { type := some .boolean })])]
      (fun n => if n = "x" then some "abc" else if n = "z" then some "maybe" else none)).config
      = none := by
  decide

/-- Claim C3 instantiated at the three-failure schema. -/
theorem claim_C3_witness :
    (loadSchema wSchemaAgg wEnvAgg).errors =
      wSchemaAgg.flatMap (fun g => g.2.flatMap (fun p => (resolveVar g.1 p.1 p.2 wEnvAgg).errors)) ∧
    (loadSchema wSchemaAgg wEnvAgg).warnings =
      wSchemaAgg.flatMap (fun g => g.2.flatMap (fun p => (resolveVar g.1 p.1 p.2 wEnvAgg).warnings)) ∧
    ((loadSchema wSchemaAgg wEnvAgg).config = none ↔ (loadSchema wSchemaAgg wEnvAgg).errors ≠ []) :=
  claim_C3 wSchemaAgg wEnvAgg

/-- Claim C4: for every successfully returned configuration, the result
mirrors the schema group-for-group and key-for-key, and a property's value is
`undefined` only when its environment value was absent or empty, no valid
default existed, and the variable was not marked required. -/
theorem claim_C4 (schema : ConfigSchema) (env : String → Option String)
    (cfg : List (String × JsGroupObj))
    (h : (loadSchema schema env).config = some cfg) :
    List.Forall₂ (fun (g : String × ConfigGroup) (c : String × JsGroupObj) =>
      c.1 = g.1 ∧
      List.Forall₂ (fun (p : String × VariableDefinition) (f : String × Option VariableType) =>
        f.1 = p.1 ∧
        (f.2 = none →
          (env (p.2.varName.getD p.1) = none ∨ env (p.2.varName.getD p.1) = some "") ∧
          (p.2.default = none ∨ ∃ dv, p.2.default = some dv ∧
            typeofValue dv ≠ p.2.type.getD .string) ∧
          p.2.required ≠ some true))
        g.2 c.2.fields)
      schema cfg := by
  obtain ⟨hcfg, herr⟩ := loadSchema_config_some schema env cfg h
  subst hcfg
  rw [loadSchema_errors] at herr
  unfold walkErrors at herr
  unfold resolvedGroups
  rw [List.forall₂_map_right_iff, List.forall₂_same]
  intro g hg
  refine ⟨rfl, ?_⟩
  rw [List.forall₂_map_right_iff, List.forall₂_same]
  intro p hp
  refine ⟨rfl, fun hv => ?_⟩
  have he : (resolveVar g.1 p.1 p.2 env).errors = [] :=
    List.flatMap_eq_nil_iff.mp (List.flatMap_eq_nil_iff.mp herr g hg) p hp
  obtain ⟨h1, h2, h3⟩ := resolveVar_value_none g.1 p.1 p.2 env he hv
  exact ⟨h1, Or.inl h2, h3⟩

/-- Claim C4 instantiated at a concrete successful load. -/
theorem claim_C4_witness :
    (loadSchema wSchemaNumDef emptyEnv).config = some wCfgNumDef ∧
    List.Forall₂ (fun (g : String × ConfigGroup) (c : String × JsGroupObj) =>
      c.1 = g.1 ∧
      List.Forall₂ (fun (p : String × VariableDefinition) (f : String × Option VariableType) =>
        f.1 = p.1 ∧
        (f.2 = none →
          (emptyEnv (p.2.varName.getD p.1) = none ∨
            emptyEnv (p.2.varName.getD p.1) = some "") ∧
          (p.2.default = none ∨ ∃ dv, p.2.default = some dv ∧
            typeofValue dv ≠ p.2.type.getD .string) ∧
          p.2.required ≠ some true))
        g.2 c.2.fields)
      wSchemaNumDef wCfgNumDef :=
  ⟨by decide, claim_C4 wSchemaNumDef emptyEnv wCfgNumDef (by decide)⟩

/-- Claim C1 counterexample: a variable that declares neither `required: true`
nor a default, absent from the environment, does not produce a
`MissingRequired` error — the pass succeeds, the value resolves to
`undefined`, and only an informational not-set log is emitted. -/
theorem claim_C1_counterexample :
    loadSchema [("g", [("k", {})])] (fun _ => none) =
      { config := some [("g", { fields := [("k", none)], frozen := true })],
        errors := [], warnings := [],
        events := [.log (notSetMessage none "g" "k")] } := by
  decide

/-- Claim C1 (amended): a variable definition that declares neither
`required: true` nor a default is treated as optional — when its effective
name is absent or empty in the environment snapshot, no error is appended,
the value resolves to `undefined`, and an informational not-set log is
emitted through the log channel.  (`MissingRequired` is produced only when
`required` is literally `true`.) -/
theorem claim_C1 (groupName propName : String) (defn : VariableDefinition)
    (env : String → Option String)
    (hreq : defn.required ≠ some true)
    (hdef : defn.default = none)
    (henv : env (defn.varName.getD propName) = none ∨
      env (defn.varName.getD propName) = some "") :
    resolveVar groupName propName defn env =
      { value := none, errors := [], warnings := [],
        events := [.log (notSetMessage defn.varName groupName propName)] } := by
  have hmiss : resolveMissing groupName propName defn (defn.type.getD .string) =
      { value := none, errors := [], warnings := [],
        events := [.log (notSetMessage defn.varName groupName propName)] } := by
    unfold resolveMissing
    rw [hdef]
    simp [hreq]
  unfold resolveVar
  rcases henv with h | h <;> simp only [h] <;> simp [hmiss]

/-- Claim C1 (amended) instantiated at `required: false`, no default, empty
environment. -/
theorem claim_C1_witness :
    resolveVar "g" "k" { required := some false } (fun _ => none) =
      { value := none, errors := [], warnings := [],
        events := [.log (notSetMessage none "g" "k")] } :=
  claim_C1 "g" "k" { required := some false } (fun _ => none) (by decide) rfl (Or.inl rfl)

/-- Claim C2 evaluated at its failing input (`required: true` with a valid
default, variable unset): the default is used and no error is appended, but
the missing-variable warning is only pushed onto the `warnings` list that
`Pnyx` discards — no `onWarn` invocation happens anywhere in the run, so the
warning never reaches the caller. -/
theorem claim_C2 :
    (Pnyx wSchemaReqDef ([] : List (String × Unit)) emptyEnv).events = [] ∧
    (Pnyx wSchemaReqDef ([] : List (String × Unit)) emptyEnv).result = .ok wTopReqDef ∧
    (loadSchema wSchemaReqDef emptyEnv).warnings = [usingDefaultMessage none "g" "k"] ∧
    (loadSchema wSchemaReqDef emptyEnv).errors = [] :=
  ⟨by decide, by decide, by decide, by decide⟩

/-- Claim C5: whenever the load pass produced a non-empty error list, `Pnyx`
invokes `onError` with the full ordered error list as its last callback, and
then throws the internal failure — it never returns a configuration object. -/
theorem claim_C5 {κ : Type} (schema : ConfigSchema) (constants : List (String × κ))
    (env : String → Option String)
    (herr : (loadSchema schema env).errors ≠ []) :
    (Pnyx schema constants env).result = .error pnyxThrowMessage ∧
    (Pnyx schema constants env).events.getLast? =
      some (.fatal (loadSchema schema env).errors) := by
  have hlen : (loadSchema schema env).errors.length > 0 := List.length_pos.mpr herr
  unfold Pnyx
  rw [if_pos hlen]
  exact ⟨rfl, List.getLast?_concat _⟩

/-- Claim C5 instantiated at a schema with one missing required variable. -/
theorem claim_C5_witness :
    (Pnyx [("g", [("k", { required := some true })])] ([] : List (String × Unit))
      (fun _ => none)).result = .error pnyxThrowMessage ∧
    (Pnyx [("g", [("k", { required := some true })])] ([] : List (String × Unit))
      (fun _ => none)).events.getLast? =
      some (.fatal (loadSchema [("g", [("k", { required := some true })])]
        (fun _ => none)).errors) :=
  claim_C5 [("g", [("k", { required := some true })])] ([] : List (String × Unit))
    (fun _ => none) (by decide)

/-- Claim C7: for a variable with a declared default, an empty-string
environment value produces exactly the same outcome (resolved value, errors,
warnings, logs) as the variable being entirely unset. -/
theorem claim_C7 (groupName propName : String) (defn : VariableDefinition)
    (env1 env2 : String → Option String)
    (hdef : defn.default.isSome = true)
    (h1 : env1 (defn.varName.getD propName) = some "")
    (h2 : env2 (defn.varName.getD propName) = none) :
    resolveVar groupName propName defn env1 = resolveVar groupName propName defn env2 := by
  unfold resolveVar
  simp [h1, h2]

/-- Claim C7 instantiated at a string variable with default `"d"`. -/
theorem claim_C7_witness :
    resolveVar "g" "k" { default := some (.string "d") } (fun _ => some "") =
      resolveVar "g" "k" { default := some (.string "d") } (fun _ => none) :=
  claim_C7 "g" "k" { default := some (.string "d") } (fun _ => some "") (fun _ => none)
    (by decide) rfl rfl

/-- Claim C8: the value parser equals the specification's reference
definition (case-insensitive boolean literal matching, numeric coercion
rejecting NaN and non-finite results, string identity), and in particular it
rejects `"NaN"`, `"Infinity"`, `"-Infinity"` and non-numeric text, accepts
numeric text, matches boolean literals case-insensitively, and returns
strings unchanged. -/
theorem claim_C8 :
    (∀ (value : String) (t : InputVariableType) (envVarName : String),
      parseValue value t envVarName = parseValueSpec value t envVarName) ∧
    parseValue "NaN" .number "N" = .error (.parseNumber "N" "NaN") ∧
    parseValue "Infinity" .number "N" = .error (.parseNumber "N" "Infinity") ∧
    parseValue "-Infinity" .number "N" = .error (.parseNumber "N" "-Infinity") ∧
    parseValue "abc" .number "N" = .error (.parseNumber "N" "abc") ∧
    parseValue "42" .number "N" = .ok (.number 42) ∧
    parseValue "TRUE" .boolean "N" = .ok (.boolean true) ∧
    parseValue "0" .boolean "N" = .ok (.boolean false) ∧
    parseValue "yes" .boolean "N" = .error (.parseBoolean "N" "yes") ∧
    (∀ (s envVarName : String), parseValue s .string envVarName = .ok (.string s)) := by
  refine ⟨fun value t envVarName => ?_, by decide, by decide, by decide, by decide,
    by decide, by decide, by decide, by decide, fun s envVarName => rfl⟩
  cases t with
  | boolean => rfl
  | number =>
    unfold parseValue parseValueSpec
    cases jsStringToNumber value <;> rfl
  | string => rfl

/-- Claim C8 instantiated: the parser and the reference definition agree on a
rejected numeric literal. -/
theorem claim_C8_witness :
    parseValue "NaN" .number "N" = .error (.parseNumber "N" "NaN") :=
  claim_C8.2.1

/-- Claim C10: a number-typed variable whose environment value is non-empty
but consists only of whitespace passes the non-empty check, coerces to `0`,
and resolves to the value `0` with no error, no warning and no default
applied. -/
theorem claim_C10 (groupName propName : String) (defn : VariableDefinition)
    (env : String → Option String) (w : String)
    (htype : defn.type = some .number)
    (henv : env (defn.varName.getD propName) = some w)
    (hne : w ≠ "")
    (hws : w.data.all isJsWhitespace = true) :
    resolveVar groupName propName defn env =
      { value := some (.number 0), errors := [], warnings := [], events := [] } := by
  have htrim : jsTrim w.toList = [] := by
    unfold jsTrim
    have h1 : w.toList.dropWhile isJsWhitespace = [] := by
      rw [List.dropWhile_eq_nil_iff]
      intro x hx
      exact List.all_eq_true.mp hws x hx
    rw [h1]
    rfl
  have hnum : jsStringToNumber w = .finite 0 := by
    unfold jsStringToNumber
    rw [htrim]
  have hparse : parseValue w .number (defn.varName.getD propName) =
      .ok (.number 0) := by
    unfold parseValue
    rw [hnum]
  unfold resolveVar
  simp only [henv, htype, Option.getD_some, if_neg hne, hparse]

/-- Claim C10 instantiated at environment value `" "` (one space). -/
theorem claim_C10_witness :
    resolveVar "g" "k" { type := some .number } (fun _ => some " ") =
      { value := some (.number 0), errors := [], warnings := [], events := [] } :=
  claim_C10 "g" "k" { type := some .number } (fun _ => some " ") " "
    rfl rfl (by decide) (by decide)

theorem lookupField_of_mem_nodup {κ : Type} (constants : List (String × κ)) (k : String)
    (v : κ) (hnd : (constants.map Prod.fst).Nodup) (hmem : (k, v) ∈ constants) :
    lookupField constants k = some v := by
  induction constants with
  | nil => cases hmem
  | cons c rest ih =>
    rw [List.map_cons, List.nodup_cons] at hnd
    cases hmem with
    | head => simp [lookupField]
    | tail _ hm =>
      have hk : c.1 ≠ k := fun h =>
        hnd.1 (h ▸ List.mem_map_of_mem Prod.fst hm)
      unfold lookupField
      rw [if_neg hk]
      exact ih hnd.2 hm

theorem lookupField_append_some {V : Type} (l1 l2 : List (String × V)) (k : String)
    (v : V) (h : lookupField l1 k = some v) : lookupField (l1 ++ l2) k = some v := by
  induction l1 with
  | nil => cases h
  | cons p rest ih =>
    rw [List.cons_append]
    unfold lookupField at h ⊢
    by_cases hp : p.1 = k
    · rwa [if_pos hp] at h ⊢
    · rw [if_neg hp] at h ⊢
      exact ih h

theorem lookupField_append_none {V : Type} (l1 l2 : List (String × V)) (k : String)
    (h : lookupField l1 k = none) : lookupField (l1 ++ l2) k = lookupField l2 k := by
  induction l1 with
  | nil => rfl
  | cons p rest ih =>
    rw [List.cons_append]
    by_cases hp : p.1 = k
    · rw [show lookupField (p :: rest) k = if p.1 = k then some p.2 else lookupField rest k
        from rfl, if_pos hp] at h
      cases h
    · rw [show lookupField (p :: rest) k = if p.1 = k then some p.2 else lookupField rest k
        from rfl, if_neg hp] at h
      rw [show lookupField (p :: (rest ++ l2)) k =
        if p.1 = k then some p.2 else lookupField (rest ++ l2) k from rfl, if_neg hp]
      exact ih h

theorem lookupField_eq_none_iff {V : Type} (l : List (String × V)) (k : String) :
    lookupField l k = none ↔ ∀ p ∈ l, p.1 ≠ k := by
  induction l with
  | nil => simp [lookupField]
  | cons p rest ih =>
    unfold lookupField
    by_cases h : p.1 = k <;> simp [h, ih]

theorem lookupField_mapped_some {κ : Type} (base : List (String × TopValue κ))
    (constants : List (String × κ)) (k : String) (v : κ) (w : TopValue κ)
    (hb : lookupField base k = some w) (hc : lookupField constants k = some v) :
    lookupField (base.map (fun p =>
      match lookupField constants p.1 with
      | some c => (p.1, TopValue.const c)
      | none => p)) k = some (TopValue.const v) := by
  induction base with
  | nil => cases hb
  | cons p rest ih =>
    rw [List.map_cons]
    unfold lookupField at hb
    by_cases hp : p.1 = k
    · rw [hp, hc]
      simp [lookupField, hp]
    · rw [if_neg hp] at hb
      cases hcp : lookupField constants p.1 <;>
        simp only [hcp, lookupField, if_neg hp] <;> exact ih hb

theorem lookupField_mapped_none {κ : Type} (base : List (String × TopValue κ))
    (constants : List (String × κ)) (k : String)
    (hb : lookupField base k = none) :
    lookupField (base.map (fun p =>
      match lookupField constants p.1 with
      | some c => (p.1, TopValue.const c)
      | none => p)) k = none := by
  induction base with
  | nil => rfl
  | cons p rest ih =>
    rw [List.map_cons]
    unfold lookupField at hb
    by_cases hp : p.1 = k
    · rw [if_pos hp] at hb; cases hb
    · rw [if_neg hp] at hb
      cases hcp : lookupField constants p.1 <;>
        simp only [hcp, lookupField, if_neg hp] <;> exact ih hb

theorem lookupField_appended_const {κ : Type} (base : List (String × TopValue κ))
    (constants : List (String × κ)) (k : String) (v : κ)
    (hnd : (constants.map Prod.fst).Nodup) (hmem : (k, v) ∈ constants)
    (hbase : ∀ p ∈ base, p.1 ≠ k) :
    lookupField ((constants.filter (fun c => !(base.any (fun p => p.1 == c.1)))).map
      (fun c => (c.1, TopValue.const c.2))) k = some (TopValue.const v) := by
  induction constants with
  | nil => cases hmem
  | cons c rest ih =>
    rw [List.map_cons, List.nodup_cons] at hnd
    cases hmem with
    | head =>
      have hkeep : base.any (fun p => p.1 == k) = false := by
        rw [List.any_eq_false]
        intro p hp
        simpa using hbase p hp
      simp [List.filter_cons, hkeep, lookupField]
    | tail _ hm =>
      have hck : c.1 ≠ k := fun h =>
        hnd.1 (h ▸ List.mem_map_of_mem Prod.fst hm)
      cases hkeep : base.any (fun p => p.1 == c.1) <;>
        simp only [List.filter_cons, hkeep, Bool.not_false, Bool.not_true,
          if_pos, if_neg, List.map_cons, lookupField, cond_true, cond_false] <;>
        first
          | exact ih hnd.2 hm
          | (rw [if_neg hck]; exact ih hnd.2 hm)

theorem lookupField_spreadConstants {κ : Type} (base : List (String × TopValue κ))
    (constants : List (String × κ)) (k : String) (v : κ)
    (hnd : (constants.map Prod.fst).Nodup) (hmem : (k, v) ∈ constants) :
    lookupField (spreadConstants base constants) k = some (TopValue.const v) := by
  have hc : lookupField constants k = some v := lookupField_of_mem_nodup _ _ _ hnd hmem
  unfold spreadConstants
  cases hb : lookupField base k with
  | some w =>
    exact lookupField_append_some _ _ _ _ (lookupField_mapped_some base constants k v w hb hc)
  | none =>
    rw [lookupField_append_none _ _ _ (lookupField_mapped_none base constants k hb)]
    exact lookupField_appended_const base constants k v hnd hmem
      ((lookupField_eq_none_iff base k).mp hb)

/-- Claim C6: every top-level constants key that also names a schema group is
warned about through `onWarn` before any load-phase callback, and in the
returned object every constants key — colliding or not — holds the constant
value (a colliding constant replaces the entire dynamic group). -/
theorem claim_C6 {κ : Type} (schema : ConfigSchema) (constants : List (String × κ))
    (env : String → Option String)
    (hnd : (constants.map Prod.fst).Nodup)
    (herr : (loadSchema schema env).errors = []) :
    ∃ obj : TopObj κ,
      (Pnyx schema constants env).result = .ok obj ∧
      (∃ pre, (Pnyx schema constants env).events = pre ++ (loadSchema schema env).events ∧
        ∀ k, k ∈ constants.map Prod.fst → k ∈ schema.map Prod.fst →
          PnyxEvent.warn (collisionMessage k) ∈ pre) ∧
      (∀ (k : String) (v : κ), (k, v) ∈ constants →
        lookupField obj.fields k = some (TopValue.const v)) := by
  have hlen : ¬ (loadSchema schema env).errors.length > 0 := by simp [herr]
  unfold Pnyx
  rw [if_neg hlen]
  refine ⟨_, rfl, ⟨collisionWarnings constants schema, rfl, ?_⟩, ?_⟩
  · intro k hkc hks
    rcases List.mem_map.mp hkc with ⟨c, hcmem, hck⟩
    unfold collisionWarnings
    refine List.mem_filterMap.mpr ⟨c, hcmem, ?_⟩
    have hcon : (schema.map Prod.fst).contains c.1 = true := by
      rw [hck]
      exact List.elem_eq_true_of_mem hks
    rw [if_pos hcon, hck]
  · intro k v hmem
    exact lookupField_spreadConstants _ constants k v hnd hmem

/-- Claim C6 instantiated: constants `db` (colliding) and `extra`
(non-colliding) against the one-group schema `wSchemaC6`. -/
theorem claim_C6_witness :
    (([("db", (7 : Nat)), ("extra", 9)].map Prod.fst).Nodup) ∧
    (loadSchema wSchemaC6 emptyEnv).errors = [] ∧
    (∃ obj : TopObj Nat,
      (Pnyx wSchemaC6 [("db", 7), ("extra", 9)] emptyEnv).result = .ok obj ∧
      (∃ pre, (Pnyx wSchemaC6 [("db", 7), ("extra", 9)] emptyEnv).events =
          pre ++ (loadSchema wSchemaC6 emptyEnv).events ∧
        ∀ k, k ∈ [("db", (7 : Nat)), ("extra", 9)].map Prod.fst →
          k ∈ wSchemaC6.map Prod.fst →
          PnyxEvent.warn (collisionMessage k) ∈ pre) ∧
      (∀ (k : String) (v : Nat), (k, v) ∈ [("db", (7 : Nat)), ("extra", 9)] →
        lookupField obj.fields k = some (TopValue.const v))) :=
  ⟨by decide, by decide,
    claim_C6 wSchemaC6 [("db", 7), ("extra", 9)] emptyEnv (by decide) (by decide)⟩

theorem loadSchema_config_of_no_errors (schema : ConfigSchema)
    (env : String → Option String)
    (h : ¬ (loadSchema schema env).errors.length > 0) :
    (loadSchema schema env).config = some (resolvedGroups schema env) := by
  rw [loadSchema_errors] at h
  unfold loadSchema
  rw [loadGroups_eq]
  simp only at h ⊢
  rw [if_neg h]

theorem resolvedGroups_frozen (schema : ConfigSchema) (env : String → Option String) :
    ∀ e ∈ resolvedGroups schema env, e.2.frozen = true := by
  intro e he
  rcases List.mem_map.mp he with ⟨g, _, rfl⟩
  rfl

theorem mem_group_spreadConstants {κ : Type} (base : List (String × TopValue κ))
    (constants : List (String × κ)) (name : String) (g : JsGroupObj)
    (h : (name, TopValue.group g) ∈ spreadConstants base constants) :
    (name, TopValue.group g) ∈ base := by
  unfold spreadConstants at h
  rcases List.mem_append.mp h with h1 | h2
  · rcases List.mem_map.mp h1 with ⟨p, hp, he⟩
    cases hcp : lookupField constants p.1 with
    | some c =>
      rw [hcp] at he
      have hcg : TopValue.const c = TopValue.group g := congrArg Prod.snd he
      cases hcg
    | none =>
      rw [hcp] at he
      have hpe : p = (name, TopValue.group g) := he
      exact hpe ▸ hp
  · rcases List.mem_map.mp h2 with ⟨c, _, he⟩
    have hcg : TopValue.const c.2 = TopValue.group g := congrArg Prod.snd he
    cases hcg

/-- Claim C9: any configuration object `Pnyx` returns is frozen at the top
level and at each schema-derived group level: property assignment on the
returned object, or on any group sub-object inside it, leaves the object
unchanged. -/
theorem claim_C9 {κ : Type} (schema : ConfigSchema) (constants : List (String × κ))
    (env : String → Option String) (obj : TopObj κ)
    (h : (Pnyx schema constants env).result = .ok obj) :
    (∀ (key : String) (v : TopValue κ), obj.setField key v = obj) ∧
    (∀ (name : String) (g : JsGroupObj), (name, TopValue.group g) ∈ obj.fields →
      ∀ (key : String) (v : Option VariableType), g.setField key v = g) := by
  unfold Pnyx at h
  by_cases hlen : (loadSchema schema env).errors.length > 0
  · rw [if_pos hlen] at h
    cases h
  · rw [if_neg hlen] at h
    have hobj := (Except.ok.inj h).symm
    subst hobj
    constructor
    · intro key v
      unfold TopObj.setField
      rw [if_pos rfl]
    · intro name g hg key v
      have hbase := mem_group_spreadConstants _ constants name g hg
      rw [loadSchema_config_of_no_errors schema env hlen] at hbase
      simp only [Option.getD_some] at hbase
      rcases List.mem_map.mp hbase with ⟨e, he, heq⟩
      have hgz : g = e.2 := by
        have := congrArg Prod.snd heq
        simpa using this.symm
      have hfz : g.frozen = true := by
        rw [hgz]
        exact resolvedGroups_frozen schema env e he
      unfold JsGroupObj.setField
      rw [if_pos hfz]

/-- Claim C9 instantiated at a schema group plus one constant. -/
theorem claim_C9_witness :
    (Pnyx wSchemaNumDef [("c", (3 : Nat))] emptyEnv).result = .ok wTopC9 ∧
    ((∀ (key : String) (v : TopValue Nat), wTopC9.setField key v = wTopC9) ∧
     (∀ (name : String) (g : JsGroupObj), (name, TopValue.group g) ∈ wTopC9.fields →
        ∀ (key : String) (v : Option VariableType), g.setField key v = g)) :=
  ⟨by decide, claim_C9 wSchemaNumDef [("c", 3)] emptyEnv wTopC9 (by decide)⟩
